import Mathlib

/-!
# Verification of the paper-trading OMS skeleton

A shallow embedding, in Lean 4, of the parts of the `trading_algo` Python
package that the specification's claims are about:

* `trading_algo/broker/base.py` — `OrderRequest.normalized`,
  `validate_order_request`, and the shared value types;
* `trading_algo/broker/sim.py` — the `SimBroker` state machine;
* `trading_algo/backtest/broker.py` — the `BacktestBroker` state machine and
  its fill engine `_try_fill`;
* `trading_algo/backtest/validate.py` — `validate_bars`;
* `trading_algo/backtest/export.py` and `trading_algo/backtest/data.py` —
  the CSV export/load pair;
* `trading_algo/llm/chat_protocol.py` — `parse_chat_model_reply`;
* `trading_algo/llm/tools.py` — `_enforce_allowlist` and the `place_order`
  branch of `dispatch_tool`.

Modelling conventions:

* Python `float` values are modelled as `ℚ` (every operation the claims
  touch is arithmetic/comparison on finitely many values, where `ℚ` and
  IEEE doubles agree for the inputs of interest).
* Python exceptions are modelled with `Except PyErr`; a function that can
  raise returns `Except PyErr α`.
* The broker order IDs (`sim-<uuid>` / `bt-<uuid>` strings) are modelled as
  successive natural numbers handed out by a counter: the Python IDs are
  fresh and unique, which is all the code relies on.
* Python `dict`s (which preserve insertion order) are modelled as
  association lists; `set` iteration order, which Python leaves unspecified,
  is modelled as list order.
-/

deriving instance DecidableEq for Except

/-- Python exception kinds raised by the modelled code. -/
inductive PyErr where
  /-- `RuntimeError(msg)` — e.g. "Broker is not connected". -/
  | runtimeError (msg : String)
  /-- `KeyError(msg)` — unknown order id / missing market data. -/
  | keyError (msg : String)
  /-- `ValueError(msg)` — invalid input. -/
  | valueError (msg : String)
  /-- `TypeError` — e.g. comparing or converting `None`. -/
  | typeError
  /-- `ToolError(msg)` from `trading_algo/llm/tools.py`. -/
  | toolError (msg : String)
deriving DecidableEq, Repr

/-- The `NotConnected` error every broker operation raises when invoked on a
disconnected broker (`RuntimeError("Broker is not connected")` in the source). -/
def notConnectedErr : PyErr := .runtimeError "Broker is not connected"

/-- Python `str.upper()` (ASCII; modelled character-wise so that concrete
strings evaluate by kernel reduction). -/
def pyUpper (s : String) : String := String.mk (s.data.map Char.toUpper)

/-- Python `str.strip()`: drop leading and trailing whitespace. -/
def pyStrip (s : String) : String :=
  String.mk (((s.data.dropWhile Char.isWhitespace).reverse.dropWhile
    Char.isWhitespace).reverse)

/-- Python `str.startswith(pre)`. -/
def pyStartsWith (s pre : String) : Bool := pre.data.isPrefixOf s.data

/-- Splitting a character list on a separator character. -/
def pySplitCharAux (sep : Char) : List Char → List Char → List String
  | [], acc => [String.mk acc.reverse]
  | ch :: rest, acc =>
    if ch = sep then String.mk acc.reverse :: pySplitCharAux sep rest []
    else pySplitCharAux sep rest (ch :: acc)

/-- Splitting a string on a single-character separator (models Python
`str.split(sep)`; on newline it models `str.splitlines` for the inputs at
hand — `parse_chat_model_reply` strips the text before fence handling, so
there is no trailing line terminator). -/
def pySplitChar (sep : Char) (s : String) : List String :=
  pySplitCharAux sep s.data []

/-- Python `text.splitlines()` (newline-separated text). -/
def pySplitNl (s : String) : List String := pySplitChar '\n' s

/-- `trading_algo/instruments.py` `InstrumentSpec` (the dataclass fields). -/
structure InstrumentSpec where
  kind : String
  symbol : String
  exchange : Option String := none
  currency : Option String := none
  expiry : Option String := none
deriving DecidableEq, Repr

/-- Modelled from the spec: `validate_instrument` (the file
`trading_algo/instruments.py` is not present under `src/`; §4.1 and §3 of the
spec describe it).  It is pure; it fails with InvalidInput when `kind` is not
one of STK/FUT/FX, when `symbol` is empty, or when a FUT is missing `expiry`;
it normalizes casing of `kind`/`symbol`/`currency` and supplies kind-specific
defaults (STK: exchange=SMART, currency=USD when absent; FUT: currency=USD
when absent; FX: exchange=IDEALPRO). -/
def validate_instrument (s : InstrumentSpec) : Except PyErr InstrumentSpec :=
  let kind := pyUpper (pyStrip s.kind)
  let symbol := pyUpper (pyStrip s.symbol)
  if ¬(kind = "STK" ∨ kind = "FUT" ∨ kind = "FX") then
    .error (.valueError "kind must be STK, FUT, or FX")
  else if symbol = "" then
    .error (.valueError "symbol is required")
  else if kind = "FUT" ∧ s.expiry = none then
    .error (.valueError "expiry is required for FUT")
  else
    let currency := (s.currency.map pyUpper)
    if kind = "STK" then
      .ok { kind := kind, symbol := symbol,
            exchange := some (s.exchange.getD "SMART"),
            currency := some (currency.getD "USD"), expiry := s.expiry }
    else if kind = "FUT" then
      .ok { kind := kind, symbol := symbol, exchange := s.exchange,
            currency := some (currency.getD "USD"), expiry := s.expiry }
    else
      .ok { kind := kind, symbol := symbol, exchange := some "IDEALPRO",
            currency := currency, expiry := s.expiry }

/-- `trading_algo/broker/base.py` `OrderRequest` (prices as `ℚ`). -/
structure OrderRequest where
  instrument : InstrumentSpec
  side : String := "BUY"
  quantity : ℚ := 1
  order_type : String := "MKT"
  limit_price : Option ℚ := none
  stop_price : Option ℚ := none
  tif : String := "DAY"
  outside_rth : Bool := false
  good_till_date : Option String := none
  account : Option String := none
  order_ref : Option String := none
  oca_group : Option String := none
  transmit : Bool := true
deriving DecidableEq, Repr

/-- Python `x.strip() if x else None` on an optional string: `None` and the
empty string map to `None`; a non-empty string is stripped (note `" "` strips
to the *retained* empty string, mirroring Python truthiness being checked
before the strip). -/
def pyStripOpt (o : Option String) : Option String :=
  match o with
  | none => none
  | some s => if s = "" then none else some (pyStrip s)

/-- `OrderRequest.normalized` from `trading_algo/broker/base.py`: validates
the instrument and upper-cases/strips the string fields. -/
def OrderRequest.normalized (r : OrderRequest) : Except PyErr OrderRequest := do
  let instrument ← validate_instrument r.instrument
  .ok { instrument := instrument
        side := pyUpper (pyStrip r.side)
        quantity := r.quantity
        order_type := pyUpper (pyStrip r.order_type)
        limit_price := r.limit_price
        stop_price := r.stop_price
        tif := pyUpper (pyStrip r.tif)
        outside_rth := r.outside_rth
        good_till_date := pyStripOpt r.good_till_date
        account := pyStripOpt r.account
        order_ref := pyStripOpt r.order_ref
        oca_group := pyStripOpt r.oca_group
        transmit := r.transmit }

/-- The post-normalization checks of `validate_order_request` from
`trading_algo/broker/base.py`.  The source is a sequence of
`if cond: raise` checks; a sequence of raise-guards is encoded as a nested
conditional.  The guards that in Python run only after an earlier `is None`
guard (`limit_price <= 0` after `limit_price is None`) read the price with
`Option.getD 1`, which is only reached when the price is present. -/
def order_checks (req : OrderRequest) : Except PyErr OrderRequest :=
    if ¬(req.side = "BUY" ∨ req.side = "SELL") then
      .error (.valueError "side must be BUY or SELL")
    else if req.quantity ≤ 0 then
      .error (.valueError "quantity must be positive")
    else if ¬(req.order_type = "MKT" ∨ req.order_type = "LMT" ∨
              req.order_type = "STP" ∨ req.order_type = "STPLMT") then
      .error (.valueError "order_type must be MKT, LMT, STP, or STPLMT")
    else if req.order_type = "LMT" ∧ req.limit_price = none then
      .error (.valueError "limit_price is required for LMT orders")
    else if req.order_type = "LMT" ∧ req.limit_price.getD 1 ≤ 0 then
      .error (.valueError "limit_price must be positive")
    else if req.order_type = "STP" ∧
            (req.stop_price = none ∨ req.stop_price.getD 1 ≤ 0) then
      .error (.valueError "stop_price is required and must be positive for STP orders")
    else if req.order_type = "STPLMT" ∧
            (req.stop_price = none ∨ req.stop_price.getD 1 ≤ 0) then
      .error (.valueError "stop_price is required and must be positive for STPLMT orders")
    else if req.order_type = "STPLMT" ∧
            (req.limit_price = none ∨ req.limit_price.getD 1 ≤ 0) then
      .error (.valueError "limit_price is required and must be positive for STPLMT orders")
    else if req.tif = "" then
      .error (.valueError "tif is required")
    else if req.tif = "GTD" ∧ req.good_till_date.getD "" = "" then
      .error (.valueError "good_till_date is required for GTD tif")
    else
      .ok req

/-- `validate_order_request` from `trading_algo/broker/base.py`: normalize,
then run the field checks. -/
def validate_order_request (req0 : OrderRequest) : Except PyErr OrderRequest :=
  match req0.normalized with
  | .error e => .error e
  | .ok req => order_checks req

/-- `trading_algo/broker/base.py` `OrderResult` (order ids modelled as `ℕ`). -/
structure OrderResult where
  order_id : ℕ
  status : String
deriving DecidableEq, Repr

/-- `trading_algo/broker/base.py` `OrderStatus`. -/
structure OrderStatus where
  order_id : ℕ
  status : String
  filled : Option ℚ
  remaining : Option ℚ
  avg_fill_price : Option ℚ
deriving DecidableEq, Repr

/-- `trading_algo/broker/base.py` `Bar` (the loader/exporter/broker bar with
all OHLC fields present; `open` is a Lean keyword, so the field is `open_`). -/
structure Bar where
  timestamp_epoch_s : ℚ
  open_ : ℚ
  high : ℚ
  low : ℚ
  close : ℚ
  volume : Option ℚ := none
deriving DecidableEq, Repr

/-- First-match lookup in an insertion-ordered association list (Python
`dict.__getitem__` / `dict.get`; keys are unique by construction). -/
def assocGet {α : Type} (l : List (ℕ × α)) (k : ℕ) : Option α :=
  (l.find? (fun p => p.1 = k)).map Prod.snd

/-- Update the value at an existing key in place, or append a new binding
(Python `d[k] = v` on an insertion-ordered `dict`). -/
def assocSet {α : Type} (l : List (ℕ × α)) (k : ℕ) (v : α) : List (ℕ × α) :=
  match l with
  | [] => [(k, v)]
  | p :: rest => if p.1 = k then (k, v) :: rest else p :: assocSet rest k v

example : assocGet (assocSet [(1, "a"), (2, "b")] 2 "c") 2 = some "c" := by decide
example : assocGet (assocSet ([] : List (ℕ × String)) 2 "c") 2 = some "c" := by decide

/-! ## `trading_algo/broker/sim.py` — `SimBroker`

Only the fields and operations the claims exercise are modelled; market-data
and account state are carried but never consulted by the claims.  `uuid`
order ids are modelled by the counter `nextId`. -/

/-- The mutable state of a `SimBroker` instance. -/
structure SimState where
  connected : Bool := false
  orders : List OrderRequest := []
  statuses : List (ℕ × OrderStatus) := []
  nextId : ℕ := 0
deriving DecidableEq, Repr

/-- `SimBroker.connect`. -/
def SimState.connect (st : SimState) : SimState := { st with connected := true }

/-- `SimBroker.disconnect`. -/
def SimState.disconnect (st : SimState) : SimState := { st with connected := false }

/-- `SimBroker.place_order`: requires a connection, validates the request,
appends it to the order list and records an immediately `Filled` status. -/
def SimState.place_order (st : SimState) (req : OrderRequest) :
    Except PyErr (OrderResult × SimState) :=
  if ¬st.connected then .error notConnectedErr
  else
    match validate_order_request req with
    | .error e => .error e
    | .ok req =>
      let order_id := st.nextId
      let status : OrderStatus :=
        { order_id := order_id, status := "Filled", filled := some req.quantity
          remaining := some 0, avg_fill_price := none }
      .ok (⟨order_id, status.status⟩,
           { st with orders := st.orders ++ [req]
                     statuses := assocSet st.statuses order_id status
                     nextId := st.nextId + 1 })

/-- `SimBroker.modify_order`: requires a connection; `KeyError` on an unknown
id; validates the new request and appends it to the order list
*unconditionally* (the source appends before inspecting the current status);
a Filled/Cancelled order keeps its status, otherwise the status becomes
Submitted with the prior fill fields. -/
def SimState.modify_order (st : SimState) (order_id : ℕ) (new_req : OrderRequest) :
    Except PyErr (OrderResult × SimState) :=
  if ¬st.connected then .error notConnectedErr
  else
    match assocGet st.statuses order_id with
    | none => .error (.keyError ("Unknown order_id: " ++ toString order_id))
    | some cur =>
      match validate_order_request new_req with
      | .error e => .error e
      | .ok new_req =>
        let st1 := { st with orders := st.orders ++ [new_req] }
        if cur.status = "Filled" ∨ cur.status = "Cancelled" then
          .ok (⟨order_id, cur.status⟩, st1)
        else
          let newStatus : OrderStatus :=
            ⟨order_id, "Submitted", cur.filled, cur.remaining, cur.avg_fill_price⟩
          .ok (⟨order_id, "Submitted"⟩,
               { st1 with statuses := assocSet st1.statuses order_id newStatus })

/-- `SimBroker.cancel_order`: requires a connection; `KeyError` on an unknown
id; a no-op on a Filled/Cancelled order; otherwise transitions the status to
Cancelled preserving the fill fields. -/
def SimState.cancel_order (st : SimState) (order_id : ℕ) :
    Except PyErr SimState :=
  if ¬st.connected then .error notConnectedErr
  else
    match assocGet st.statuses order_id with
    | none => .error (.keyError ("Unknown order_id: " ++ toString order_id))
    | some status =>
      if status.status = "Filled" ∨ status.status = "Cancelled" then .ok st
      else
        let newStatus : OrderStatus :=
          ⟨order_id, "Cancelled", status.filled, status.remaining, status.avg_fill_price⟩
        .ok { st with statuses := assocSet st.statuses order_id newStatus }

/-- `SimBroker.get_order_status`: requires a connection; `KeyError` on an
unknown id. -/
def SimState.get_order_status (st : SimState) (order_id : ℕ) :
    Except PyErr OrderStatus :=
  if ¬st.connected then .error notConnectedErr
  else
    match assocGet st.statuses order_id with
    | none => .error (.keyError ("Unknown order_id: " ++ toString order_id))
    | some status => .ok status

/-! ## `trading_algo/backtest/broker.py` — fill model and `BacktestBroker` -/

/-- `FillModel` from `trading_algo/backtest/broker.py`. -/
structure FillModel where
  commission_per_order : ℚ := 0
  slippage_bps : ℚ := 0
deriving DecidableEq, Repr

/-- `FillModel.apply_slippage`: no-op for `slippage_bps ≤ 0`, else worsens
the price in the direction of the trade. -/
def FillModel.apply_slippage (fm : FillModel) (price : ℚ) (side : String) : ℚ :=
  if fm.slippage_bps ≤ 0 then price
  else
    let sign : ℚ := if pyUpper side = "BUY" then 1 else -1
    price * (1 + sign * (fm.slippage_bps / 10000))

/-- `BacktestBroker._try_fill`: the deterministic per-bar fill rule.  A `LMT`
(`STP`, `STPLMT`) request whose limit (stop) price is absent makes the Python
source evaluate `float(None)`, which raises `TypeError`; that path is the
`.error .typeError` branch (unreachable for validated requests). -/
def try_fill (req : OrderRequest) (bar : Bar) : Except PyErr (Option ℚ) :=
  let side := pyUpper req.side
  if req.order_type = "MKT" then .ok (some bar.open_)
  else if req.order_type = "LMT" then
    match req.limit_price with
    | none => .error .typeError
    | some lp =>
      if side = "BUY" ∧ bar.low ≤ lp then .ok (some lp)
      else if side = "SELL" ∧ bar.high ≥ lp then .ok (some lp)
      else .ok none
  else if req.order_type = "STP" then
    match req.stop_price with
    | none => .error .typeError
    | some sp =>
      if side = "BUY" ∧ bar.high ≥ sp then .ok (some sp)
      else if side = "SELL" ∧ bar.low ≤ sp then .ok (some sp)
      else .ok none
  else if req.order_type = "STPLMT" then
    match req.stop_price with
    | none => .error .typeError
    | some sp =>
      match req.limit_price with
      | none => .error .typeError
      | some lp =>
        let triggered := if side = "BUY" then bar.high ≥ sp else bar.low ≤ sp
        if ¬triggered then .ok none
        else if side = "BUY" ∧ bar.low ≤ lp then .ok (some lp)
        else if side = "SELL" ∧ bar.high ≥ lp then .ok (some lp)
        else .ok none
  else .ok none

/-- The mutable state of a `BacktestBroker` instance (`trading_algo/backtest/
broker.py`).  The Python attribute `_i` is `i`, `_open` (a `set[str]`) is the
list `openOrders` in insertion order, and `bt-<uuid>` ids are the counter
`nextId`. -/
structure BTState where
  instrument : InstrumentSpec
  bars : List Bar
  initial_cash : ℚ := 100000
  fill_model : FillModel := {}
  spread : ℚ := 0
  connected : Bool := false
  i : ℕ := 0
  cash : ℚ := 0
  qty : ℚ := 0
  avg_cost : Option ℚ := none
  orders : List (ℕ × OrderRequest) := []
  statuses : List (ℕ × OrderStatus) := []
  openOrders : List ℕ := []
  nextId : ℕ := 0
deriving DecidableEq, Repr

/-- `BacktestBroker.connect`: validates the instrument and resets the cursor,
cash and position (orders/statuses are untouched by the source). -/
def BTState.connect (st : BTState) : Except PyErr BTState :=
  match validate_instrument st.instrument with
  | .error e => .error e
  | .ok instrument =>
    .ok { st with connected := true, instrument := instrument,
                  cash := st.initial_cash, qty := 0, avg_cost := none, i := 0 }

/-- `BacktestBroker.disconnect`. -/
def BTState.disconnect (st : BTState) : BTState := { st with connected := false }

/-- `BacktestBroker._apply_fill`: cash and volume-weighted average-cost
bookkeeping for one fill. -/
def BTState.apply_fill (st : BTState) (side : String) (qty price commission : ℚ) :
    BTState :=
  let sign : ℚ := if pyUpper side = "BUY" then 1 else -1
  let delta_qty := sign * qty
  let cash := st.cash - price * qty * sign - commission
  let new_qty := st.qty + delta_qty
  let avg_cost :=
    if st.qty = 0 then (if new_qty ≠ 0 then some price else none)
    else if (st.qty > 0 ∧ delta_qty > 0) ∨ (st.qty < 0 ∧ delta_qty < 0) then
      (if |new_qty| > 0 then
        some (((st.avg_cost.getD 0) * |st.qty| + price * |delta_qty|) / |new_qty|)
       else st.avg_cost)
    else (if new_qty = 0 then none else st.avg_cost)
  { st with cash := cash, qty := new_qty, avg_cost := avg_cost }

/-- The loop body of `BacktestBroker._fill_open_orders`, folded over the
snapshot `list(self._open)` taken at entry. -/
def fillLoop (bar : Bar) : List ℕ → BTState → Except PyErr BTState
  | [], st => .ok st
  | oid :: rest, st =>
    match assocGet st.orders oid with
    | none => .error (.keyError (toString oid))
    | some req => do
      let fill ← try_fill req bar
      match fill with
      | none => fillLoop bar rest st
      | some price =>
        let fill_price := st.fill_model.apply_slippage price req.side
        let commission := st.fill_model.commission_per_order
        let st := st.apply_fill req.side req.quantity fill_price commission
        let newStatus : OrderStatus :=
          ⟨oid, "Filled", some req.quantity, some 0, some fill_price⟩
        let st := { st with openOrders := st.openOrders.erase oid,
                            statuses := assocSet st.statuses oid newStatus }
        fillLoop bar rest st

/-- `BacktestBroker._fill_open_orders`. -/
def BTState.fill_open_orders (st : BTState) (bar : Bar) : Except PyErr BTState :=
  fillLoop bar st.openOrders st

/-- `BacktestBroker.step`: evaluates open orders against `bars[i]`, advances
the cursor, and reports whether bars remain. -/
def BTState.step (st : BTState) : Except PyErr (Bool × BTState) :=
  if ¬st.connected then .error notConnectedErr
  else if st.bars.length ≤ st.i then .ok (false, st)
  else
    match st.bars.get? st.i with
    | none => .ok (false, st)
    | some bar => do
      let st ← st.fill_open_orders bar
      let st := { st with i := st.i + 1 }
      .ok (decide (st.i < st.bars.length), st)

/-- `BacktestBroker.get_historical_bars`: returns `self.bars[: self._i]`.
The source performs *no* connected check here (unlike every other
operation). -/
def BTState.get_historical_bars (st : BTState) (instrument : InstrumentSpec) :
    Except PyErr (List Bar) :=
  match validate_instrument instrument with
  | .error e => .error e
  | .ok instrument =>
    if instrument ≠ st.instrument then
      .error (.keyError "BacktestBroker only supports one instrument")
    else
      .ok (st.bars.take st.i)

/-- `BacktestBroker.place_order`. -/
def BTState.place_order (st : BTState) (req : OrderRequest) :
    Except PyErr (OrderResult × BTState) :=
  if ¬st.connected then .error notConnectedErr
  else
    match validate_order_request req with
    | .error e => .error e
    | .ok req =>
      match validate_instrument req.instrument with
      | .error e => .error e
      | .ok inst =>
        if inst ≠ st.instrument then
          .error (.valueError "BacktestBroker only supports one instrument per run")
        else
          let order_id := st.nextId
          let status : OrderStatus :=
            ⟨order_id, "Submitted", some 0, some req.quantity, none⟩
          .ok (⟨order_id, status.status⟩,
               { st with orders := assocSet st.orders order_id req,
                         openOrders := st.openOrders ++ [order_id],
                         statuses := assocSet st.statuses order_id status,
                         nextId := st.nextId + 1 })

/-- `BacktestBroker.modify_order`: replaces the stored request; if the order
is still open its status is reset to Submitted with the new quantity. -/
def BTState.modify_order (st : BTState) (order_id : ℕ) (new_req : OrderRequest) :
    Except PyErr (OrderResult × BTState) :=
  if ¬st.connected then .error notConnectedErr
  else if assocGet st.orders order_id = none then
    .error (.keyError ("Unknown order_id: " ++ toString order_id))
  else
    match validate_order_request new_req with
    | .error e => .error e
    | .ok new_req =>
      let st1 := { st with orders := assocSet st.orders order_id new_req }
      let st2 :=
        if order_id ∈ st1.openOrders then
          { st1 with statuses := assocSet st1.statuses order_id
                       (⟨order_id, "Submitted", some 0, some new_req.quantity, none⟩ :
                         OrderStatus) }
        else st1
      match assocGet st2.statuses order_id with
      | none => .error (.keyError (toString order_id))
      | some cur => .ok (⟨order_id, cur.status⟩, st2)

/-- `BacktestBroker.cancel_order`: removes the id from the open set and
*unconditionally* rewrites the status to Cancelled (the source has no
terminal-status guard), preserving the prior fill fields when a status
exists. -/
def BTState.cancel_order (st : BTState) (order_id : ℕ) : Except PyErr BTState :=
  if ¬st.connected then .error notConnectedErr
  else if assocGet st.orders order_id = none then
    .error (.keyError ("Unknown order_id: " ++ toString order_id))
  else
    let stOld := assocGet st.statuses order_id
    let newStatus : OrderStatus :=
      ⟨order_id, "Cancelled",
       (stOld.map OrderStatus.filled).getD (some 0),
       (stOld.map OrderStatus.remaining).getD (some 0),
       (stOld.map OrderStatus.avg_fill_price).getD none⟩
    .ok { st with openOrders := st.openOrders.erase order_id,
                  statuses := assocSet st.statuses order_id newStatus }

/-- `BacktestBroker.get_order_status`. -/
def BTState.get_order_status (st : BTState) (order_id : ℕ) :
    Except PyErr OrderStatus :=
  if ¬st.connected then .error notConnectedErr
  else
    match assocGet st.statuses order_id with
    | none => .error (.keyError ("Unknown order_id: " ++ toString order_id))
    | some status => .ok status

/-! ## `trading_algo/llm/tools.py` — allow-list and tool dispatch -/

/-- `_enforce_allowlist` from `trading_algo/llm/tools.py`: the instrument
kind must be (case-insensitively) in `allowed_kinds`; a non-empty
`allowed_symbols` must (case-insensitively) contain the symbol.  The Python
`set[str]` arguments are modelled as lists; membership after upper-casing
both sides mirrors the source's set comprehensions. -/
def enforce_allowlist (inst : InstrumentSpec)
    (allowed_kinds allowed_symbols : List String) : Except PyErr Unit :=
  if pyUpper inst.kind ∉ allowed_kinds.map pyUpper then
    .error (.toolError ("Instrument kind not allowed: " ++ inst.kind))
  else if allowed_symbols ≠ [] ∧ pyUpper inst.symbol ∉ allowed_symbols.map pyUpper then
    .error (.toolError ("Symbol not allowed: " ++ inst.symbol))
  else
    .ok ()

/-- The `place_order` branch of `dispatch_tool` from
`trading_algo/llm/tools.py`: parse the nested order object, enforce the
allow-list, then hand the request to `oms.submit`.  The argument-parsing
stage (`_parse_order_request`, a dynamic-JSON coercion layer) is supplied as
its outcome `parsedOrder`; `submit` is the `OrderManager.submit` callback.
The second component of the result is the list of requests actually passed
to `submit`, recording how often it was invoked. -/
def dispatch_place_order (parsedOrder : Except PyErr OrderRequest)
    (submit : OrderRequest → OrderResult)
    (allowed_kinds allowed_symbols : List String) :
    Except PyErr OrderResult × List OrderRequest :=
  match parsedOrder with
  | .error e => (.error e, [])
  | .ok req =>
    match enforce_allowlist req.instrument allowed_kinds allowed_symbols with
    | .error e => (.error e, [])
    | .ok _ => (.ok (submit req), [req])

/-! ## `trading_algo/backtest/validate.py` — `validate_bars`

The validator defends against `None` fields (`if b.timestamp_epoch_s is
None`, `if v is None`), so its input domain is bars whose fields may be
absent; `BarOpt` is the `Bar` dataclass as the validator sees it.  Python
comparisons involving `None` raise `TypeError`; the `py…` comparison
helpers model that. -/

/-- A bar as consumed by `validate_bars`: every field may be `None`. -/
structure BarOpt where
  timestamp_epoch_s : Option ℚ := none
  open_ : Option ℚ := none
  high : Option ℚ := none
  low : Option ℚ := none
  close : Option ℚ := none
  volume : Option ℚ := none
deriving DecidableEq, Repr

/-- `trading_algo/backtest/validate.py` `ValidationIssue`. -/
structure ValidationIssue where
  level : String
  message : String
deriving DecidableEq, Repr

/-- Python `a < b` on possibly-`None` floats: `TypeError` if either side is
`None`. -/
def pyLt (a b : Option ℚ) : Except PyErr Bool :=
  match a, b with
  | some x, some y => .ok (decide (x < y))
  | _, _ => .error .typeError

/-- Python `a <= b` on possibly-`None` floats. -/
def pyLe (a b : Option ℚ) : Except PyErr Bool :=
  match a, b with
  | some x, some y => .ok (decide (x ≤ y))
  | _, _ => .error .typeError

/-- Python's chained `a <= b <= c`: the second comparison is only evaluated
when the first is true. -/
def pyChainLe (a b c : Option ℚ) : Except PyErr Bool := do
  let x ← pyLe a b
  if x then pyLe b c else .ok false

/-- The message of a non-positive-field issue
(`f"bar[\x7bi\x7d] non-positive \x7bname\x7d=\x7bv\x7d"`; the numeric
rendering of `v` is `ℚ`'s, standing in for Python's float `repr`). -/
def nonPosMsg (i : ℕ) (name : String) (v : ℚ) : String :=
  "bar[" ++ toString i ++ "] non-positive " ++ name ++ "=" ++ toString v

/-- The per-bar OHLC field checks of `validate_bars` (the
`for name, v in [...]` loop): a missing field is an error, a non-positive
one is an error. -/
def ohlcIssues (i : ℕ) (b : BarOpt) : List ValidationIssue :=
  [("open", b.open_), ("high", b.high), ("low", b.low), ("close", b.close)].foldl
    (fun acc p =>
      match p.2 with
      | none => acc ++ [⟨"error", "bar[" ++ toString i ++ "] missing " ++ p.1⟩]
      | some v =>
        if v ≤ 0 then acc ++ [⟨"error", nonPosMsg i p.1 v⟩]
        else acc)
    []

/-- The main per-bar loop of `validate_bars` (index, last timestamp seen and
the issue accumulator are the loop state). -/
def validateMainLoop : List BarOpt → ℕ → Option ℚ → List ValidationIssue →
    Except PyErr (List ValidationIssue)
  | [], _, _, issues => .ok issues
  | b :: rest, i, last_ts, issues =>
    match b.timestamp_epoch_s with
    | none =>
      validateMainLoop rest (i + 1) last_ts
        (issues ++ [⟨"error", "bar[" ++ toString i ++ "] missing timestamp"⟩])
    | some ts =>
      let issues :=
        match last_ts with
        | some lt =>
          if ts < lt then
            issues ++ [⟨"error", "timestamps not sorted at bar[" ++ toString i ++ "]"⟩]
          else issues
        | none => issues
      let issues := issues ++ ohlcIssues i b
      match pyLt b.high b.low with
      | .error e => .error e
      | .ok lowGtHigh => do
        let issues := if lowGtHigh then
            issues ++ [⟨"error", "bar[" ++ toString i ++ "] low > high"⟩]
          else issues
        let openIn ← pyChainLe b.low b.open_ b.high
        let issues := if ¬openIn then
            issues ++ [⟨"warn", "bar[" ++ toString i ++ "] open outside [low,high]"⟩]
          else issues
        let closeIn ← pyChainLe b.low b.close b.high
        let issues := if ¬closeIn then
            issues ++ [⟨"warn", "bar[" ++ toString i ++ "] close outside [low,high]"⟩]
          else issues
        validateMainLoop rest (i + 1) (some ts) issues

/-- The duplicate-timestamp pass of `validate_bars` (`seen` is the Python
`set[float]`, which may also hold the `None` timestamp). -/
def dupLoop : List BarOpt → ℕ → List (Option ℚ) → List ValidationIssue →
    List ValidationIssue
  | [], _, _, issues => issues
  | b :: rest, i, seen, issues =>
    let issues :=
      if b.timestamp_epoch_s ∈ seen then
        issues ++ [⟨"warn", "duplicate timestamp at bar[" ++ toString i ++ "]"⟩]
      else issues
    dupLoop rest (i + 1) (seen ++ [b.timestamp_epoch_s]) issues

/-- `validate_bars` from `trading_algo/backtest/validate.py`. -/
def validate_bars (bars : List BarOpt) : Except PyErr (List ValidationIssue) :=
  if bars = [] then .ok [⟨"error", "no bars"⟩]
  else do
    let issues ← validateMainLoop bars 0 none []
    .ok (dupLoop bars 0 [] issues)

/-! ## `trading_algo/backtest/export.py` and `data.py` — CSV export / load

The CSV cell layer is modelled at value level: a written row carries the
integer timestamp (`int(b.timestamp_epoch_s)`, Python truncation toward
zero), the four exact OHLC numbers (Python float `repr` round-trips through
the loader's `float(...)` exactly), and the optional volume (`""` on export
for an absent volume; the loader maps `""` back to absent). -/

/-- Python `int()` on a float: truncation toward zero. -/
def pyInt (q : ℚ) : ℤ := Int.tdiv q.num q.den

/-- One written CSV data row of `export_historical_bars`. -/
structure CsvRow where
  timestamp : ℤ
  open_ : ℚ
  high : ℚ
  low : ℚ
  close : ℚ
  volume : Option ℚ
deriving DecidableEq, Repr

/-- A CSV file at value level: the header line, and the data rows. -/
structure CsvFile where
  header : String
  rows : List CsvRow
deriving DecidableEq, Repr

/-- The by-timestamp order used by the exporter's and loader's sorts. -/
def barLe (a b : Bar) : Prop := a.timestamp_epoch_s ≤ b.timestamp_epoch_s

instance : DecidableRel barLe :=
  fun a b => inferInstanceAs (Decidable (a.timestamp_epoch_s ≤ b.timestamp_epoch_s))

instance : IsTotal Bar barLe := ⟨fun a b => le_total _ _⟩

instance : IsTrans Bar barLe := ⟨fun _ _ _ hab hbc => le_trans hab hbc⟩

/-- Sorting by timestamp ascending (`all_bars.sort(key=lambda b:
b.timestamp_epoch_s)`; after deduplication the keys are distinct, so any
correct sort agrees with Python's stable sort). -/
def sortBars (bars : List Bar) : List Bar :=
  bars.insertionSort barLe

/-- The chunk-merge step of `export_historical_bars`: append each bar of the
chunk whose timestamp is not yet present (the `existing` set is exactly the
timestamps of the accumulator). -/
def dedupMerge (acc chunk : List Bar) : List Bar :=
  chunk.foldl
    (fun a b =>
      if a.any (fun x => x.timestamp_epoch_s = b.timestamp_epoch_s) then a
      else a ++ [b])
    acc

/-- The pagination loop of `export_historical_bars`: `getBars` is the
broker's `get_historical_bars` as a function of the moving `end_datetime`
(the remaining call parameters are fixed by the config); the loop stops
after `max_calls` calls or on the first empty chunk, merging, sorting and
moving `end_datetime` to one second before the earliest accumulated
timestamp. -/
def exportLoop (getBars : Option String → List Bar) :
    ℕ → Option String → List Bar → List Bar
  | 0, _, acc => acc
  | n + 1, endDt, acc =>
    let chunk := getBars endDt
    if chunk = [] then acc
    else
      let acc := sortBars (dedupMerge acc chunk)
      match acc.head? with
      | none => acc
      | some earliest =>
        exportLoop getBars n
          (some (toString (pyInt earliest.timestamp_epoch_s - 1))) acc

/-- The bar list accumulated and returned by `export_historical_bars`
(sorted once more before writing, as in the source). -/
def exportAllBars (getBars : Option String → List Bar) (max_calls : ℕ)
    (end_datetime : Option String) : List Bar :=
  sortBars (exportLoop getBars max_calls end_datetime [])

/-- The CSV data rows written by `export_historical_bars` for a bar list
(`csv.DictWriter.writerow`): truncated-integer timestamp, the four exact
OHLC numbers, and the volume (`none` stands for the empty cell written for
an absent volume). -/
def writeCsvRows (bars : List Bar) : List CsvRow :=
  bars.map (fun b =>
    ⟨pyInt b.timestamp_epoch_s, b.open_, b.high, b.low, b.close, b.volume⟩)

/-- The CSV file written by `export_historical_bars`: the fixed
`DictWriter` header and the data rows. -/
def writeCsv (bars : List Bar) : CsvFile :=
  ⟨"timestamp,open,high,low,close,volume", writeCsvRows bars⟩

/-- `load_bars_csv` from `trading_algo/backtest/data.py`: requires the five
mandatory columns among the header's comma-separated field names, turns
each data row into a `Bar` (the timestamp cell, an integer on export,
parses as that number; an empty volume cell is `none`), and sorts by
timestamp ascending. -/
def load_bars_csv (csv : CsvFile) : Except PyErr (List Bar) :=
  if ¬(["timestamp", "open", "high", "low", "close"].all
      (fun col => (pySplitChar ',' csv.header).contains col)) then
    .error (.valueError "CSV missing required columns")
  else
    .ok (sortBars (csv.rows.map (fun r =>
      ⟨(r.timestamp : ℚ), r.open_, r.high, r.low, r.close, r.volume⟩)))

/-! ## `trading_algo/llm/chat_protocol.py` — `parse_chat_model_reply`

`json.loads` (the Python standard-library parser, a third-party boundary
here) is reflected by an oracle argument `parsed : Option Json`: the parse
result of the fence-stripped, stripped input (`none` for a parse failure).
Everything after the parse is modelled from the source. -/

/-- A parsed JSON value. -/
inductive Json where
  | null
  | bool (b : Bool)
  | num (q : ℚ)
  | str (s : String)
  | arr (items : List Json)
  | obj (fields : List (String × Json))
deriving Repr

/-- Python `str(...)` applied to a value produced by `json.loads` (only the
string case is load-bearing for the claims; the remaining cases give
Python's renderings, with container contents elided). -/
def pyStr : Json → String
  | .null => "None"
  | .bool b => if b then "True" else "False"
  | .num q => toString q
  | .str s => s
  | .arr _ => "[...]"
  | .obj _ => "\x7b...\x7d"

/-- Python truthiness of a `json.loads` value (`obj.get("tool_calls") or []`). -/
def pyTruthy : Json → Bool
  | .null => false
  | .bool b => b
  | .num q => q ≠ 0
  | .str s => s ≠ ""
  | .arr items => !items.isEmpty
  | .obj fields => !fields.isEmpty

/-- `dict.get` on a parsed JSON object. -/
def jsonGet (fields : List (String × Json)) (k : String) : Option Json :=
  (fields.find? (fun p => p.1 = k)).map Prod.snd

/-- `ToolCall` from `trading_algo/llm/chat_protocol.py` (`args` keeps the
parsed JSON value; the source stores the dict itself). -/
structure ToolCall where
  name : String
  args : Json
  call_id : Option String := none

/-- `ChatModelReply` from `trading_algo/llm/chat_protocol.py`. -/
structure ChatModelReply where
  assistant_message : String
  tool_calls : List ToolCall

/-- The per-entry processing of the `tool_calls` array: non-dict entries and
entries whose name stringifies/strips to the empty string are dropped; a
non-dict `args` is coerced to the empty object; a present, non-null `id` is
stringified. -/
def parseToolCallItem : Json → Option ToolCall
  | .obj f =>
    let name := pyStrip (match jsonGet f "name" with
      | none => ""
      | some v => pyStr v)
    if name = "" then none
    else
      let args := match jsonGet f "args" with
        | some (Json.obj a) => Json.obj a
        | _ => Json.obj []
      let call_id := match jsonGet f "id" with
        | none => none
        | some .null => none
        | some v => some (pyStr v)
      some ⟨name, args, call_id⟩
  | _ => none

/-- `_strip_code_fences` from `trading_algo/llm/chat_protocol.py`
(`splitlines` on the already-stripped input is modelled by splitting on
newline). -/
def strip_code_fences (text : String) : String :=
  if pyStartsWith text "```" then
    let lines := pySplitNl text
    if 3 ≤ lines.length ∧ pyStartsWith (lines.headD "") "```" ∧
        pyStrip (lines.getLastD "") = "```" then
      pyStrip (String.intercalate "\n" (lines.drop 1).dropLast)
    else text
  else text

/-- `parse_chat_model_reply` from `trading_algo/llm/chat_protocol.py`; the
`parsed` argument is the oracle outcome of
`json.loads(strip_code_fences(pyStrip text))`. -/
def parse_chat_model_reply (text : String) (parsed : Option Json) :
    ChatModelReply :=
  match parsed with
  | none => ⟨text, []⟩
  | some j =>
    match j with
    | .obj fields =>
      let assistant_message := match jsonGet fields "assistant_message" with
        | none => ""
        | some .null => ""
        | some v => pyStr v
      let tcRaw := match jsonGet fields "tool_calls" with
        | none => Json.arr []
        | some v => if pyTruthy v then v else Json.arr []
      let tool_calls := match tcRaw with
        | .arr items => items.filterMap parseToolCallItem
        | _ => []
      ⟨assistant_message, tool_calls⟩
    | _ => ⟨text, []⟩

/-! ## Helper definitions for the theorems, and concrete fixtures -/

/-- Iterating `BacktestBroker.step` a number of times. -/
def runSteps : ℕ → BTState → Except PyErr BTState
  | 0, st => .ok st
  | k + 1, st =>
    match st.step with
    | .error e => .error e
    | .ok (_, st') => runSteps k st'

/-- A request carries the prices its fill rule reads (`_try_fill` calls
`float(...)` on them); every request accepted by `validate_order_request`
satisfies this. -/
def ReqFillSafe (req : OrderRequest) : Prop :=
  (req.order_type = "LMT" → req.limit_price ≠ none) ∧
  (req.order_type = "STP" → req.stop_price ≠ none) ∧
  (req.order_type = "STPLMT" → req.stop_price ≠ none ∧ req.limit_price ≠ none)

/-- Every open order id resolves to a stored request whose fill rule cannot
raise; `step` then never raises. -/
def OpenSafe (st : BTState) : Prop :=
  ∀ oid ∈ st.openOrders, ∃ req, assocGet st.orders oid = some req ∧ ReqFillSafe req

/-- Fixture: a well-formed validator bar (`low=1 ≤ open=1 ≤ high=2`,
`low ≤ close=2 ≤ high`, all positive) carrying a chosen timestamp. -/
def obar (ts : ℚ) : BarOpt :=
  { timestamp_epoch_s := some ts, open_ := some 1, high := some 2,
    low := some 1, close := some 2 }

/-- Fixture: the AAPL stock instrument, as a user writes it. -/
def aapl : InstrumentSpec := { kind := "STK", symbol := "AAPL" }

/-- Fixture: AAPL after `validate_instrument` (defaults filled in). -/
def aaplV : InstrumentSpec :=
  { kind := "STK", symbol := "AAPL", exchange := some "SMART",
    currency := some "USD", expiry := none }

/-- Fixture: a BUY 1 MKT day order for AAPL. -/
def mktReq : OrderRequest := { instrument := aapl }

/-- Fixture: the first bar of the repository's backtest test series. -/
def bar1 : Bar :=
  { timestamp_epoch_s := 1, open_ := 100, high := 105, low := 95, close := 102,
    volume := some 1000 }

/-- Fixture: the second bar of the repository's backtest test series. -/
def bar2 : Bar :=
  { timestamp_epoch_s := 2, open_ := 102, high := 106, low := 101, close := 104,
    volume := some 1000 }

/-- Fixture: a fresh single-bar backtest broker over AAPL. -/
def bt1 : BTState := { instrument := aapl, bars := [bar1], initial_cash := 1000 }

/-- Fixture: a fresh two-bar backtest broker over AAPL. -/
def bt2 : BTState :=
  { instrument := aapl, bars := [bar1, bar2], initial_cash := 1000 }

/-- Fixture: a bar with the fractional timestamp one half. -/
def halfBar : Bar := ⟨mkRat 1 2, 1, 2, 1, 2, none⟩

/-- Fixture: a paging broker that serves `[halfBar]` on the first call
(absent `end_datetime`) and nothing afterwards. -/
def halfGetBars : Option String → List Bar :=
  fun e => if e = none then [halfBar] else []

/-- Fixture: a paging broker with integral timestamps: `[bar1, bar2]` on
the first call, nothing afterwards. -/
def intGetBars : Option String → List Bar :=
  fun e => if e = none then [bar1, bar2] else []

/-- Fixture: a well-formed tool-call entry (whitespace-padded name, object
args, string id). -/
def tcGood : Json :=
  Json.obj [("name", Json.str " place_order "), ("args", Json.obj [("qty", Json.num 1)]),
    ("id", Json.str "c1")]

/-- Fixture: a tool-call entry whose name strips to empty (to be dropped). -/
def tcBad : Json := Json.obj [("name", Json.str "  ")]

/-- Fixture: a parsed chat reply carrying one good, one nameless and one
non-object tool-call entry. -/
def chatFields : List (String × Json) :=
  [("assistant_message", Json.str "hi"),
   ("tool_calls", Json.arr [tcGood, tcBad, Json.str "x"])]

/-- Fixture: a fresh simulated broker. -/
def sim0 : SimState := {}

/-- Fixture: `mktReq` after validation (instrument defaults filled in). -/
def mktReqN : OrderRequest := { mktReq with instrument := aaplV }

/-- Fixture: a connected simulated broker holding one Filled order — the
state reached by `connect()` followed by `place_order(mktReq)`. -/
def simFilled : SimState :=
  { connected := true, orders := [mktReqN],
    statuses := [(0, ⟨0, "Filled", some 1, some 0, none⟩)], nextId := 1 }

/-- Fixture: `bt2` immediately after `connect()`. -/
def bt2c : BTState :=
  { instrument := aaplV, bars := [bar1, bar2], initial_cash := 1000,
    connected := true, i := 0, cash := 1000, qty := 0, avg_cost := none }

/-- Fixture: `bt2c` after one `step()` (no orders are open, so only the
cursor moves). -/
def bt2s : BTState := { bt2c with i := 1 }

/-- Fixture: a connected backtest broker holding one Filled order — the
state reached on `bt1` by `connect()`, `place_order(mktReq)` and one
`step()` (the MKT order fills at `bar1.open = 100`). -/
def btFilled : BTState :=
  { instrument := aaplV, bars := [bar1], initial_cash := 1000,
    connected := true, i := 1, cash := 1000 - 100 * 1, qty := 0 + 1 * 1,
    avg_cost := some 100, orders := [(0, mktReqN)],
    statuses := [(0, ⟨0, "Filled", some 1, some 0, some 100⟩)],
    openOrders := [], nextId := 1 }

/-! ## Theorems -/

theorem pyUpper_BUY : pyUpper "BUY" = "BUY" := by decide

theorem pyUpper_SELL : pyUpper "SELL" = "SELL" := by decide

/-- **C2.** In the backtest fill engine (`BacktestBroker._try_fill`),
evaluated against a bar: a MKT order fills at the bar's open; a BUY LMT
order fills at the limit price iff `bar.low ≤ limit` and a SELL LMT iff
`bar.high ≥ limit`; a BUY STP order fills at the stop price iff
`bar.high ≥ stop` and a SELL STP iff `bar.low ≤ stop`; a STPLMT order fills
at the limit price iff the STP trigger condition and the LMT fill condition
both hold against the same bar; any other order type never fills. -/
theorem c2_backtest_fill_rules (req : OrderRequest) (bar : Bar) :
    (req.order_type = "MKT" → try_fill req bar = .ok (some bar.open_)) ∧
    (req.order_type = "LMT" → ∀ lp, req.limit_price = some lp →
      (req.side = "BUY" →
        try_fill req bar = .ok (if bar.low ≤ lp then some lp else none)) ∧
      (req.side = "SELL" →
        try_fill req bar = .ok (if bar.high ≥ lp then some lp else none))) ∧
    (req.order_type = "STP" → ∀ sp, req.stop_price = some sp →
      (req.side = "BUY" →
        try_fill req bar = .ok (if bar.high ≥ sp then some sp else none)) ∧
      (req.side = "SELL" →
        try_fill req bar = .ok (if bar.low ≤ sp then some sp else none))) ∧
    (req.order_type = "STPLMT" → ∀ sp lp, req.stop_price = some sp →
      req.limit_price = some lp →
      (req.side = "BUY" →
        try_fill req bar =
          .ok (if bar.high ≥ sp ∧ bar.low ≤ lp then some lp else none)) ∧
      (req.side = "SELL" →
        try_fill req bar =
          .ok (if bar.low ≤ sp ∧ bar.high ≥ lp then some lp else none))) ∧
    (¬(req.order_type = "MKT" ∨ req.order_type = "LMT" ∨ req.order_type = "STP" ∨
        req.order_type = "STPLMT") → try_fill req bar = .ok none) := by
  refine ⟨?_, ?_, ?_, ?_, ?_⟩
  · intro h
    simp [try_fill, h]
  · intro h lp hlp
    constructor
    · intro hside
      by_cases hc : bar.low ≤ lp <;>
        simp [try_fill, h, hlp, hside, pyUpper_BUY, hc]
    · intro hside
      by_cases hc : bar.high ≥ lp <;>
        simp [try_fill, h, hlp, hside, pyUpper_SELL, hc]
  · intro h sp hsp
    constructor
    · intro hside
      by_cases hc : bar.high ≥ sp <;>
        simp [try_fill, h, hsp, hside, pyUpper_BUY, hc]
    · intro hside
      by_cases hc : bar.low ≤ sp <;>
        simp [try_fill, h, hsp, hside, pyUpper_SELL, hc]
  · intro h sp lp hsp hlp
    constructor
    · intro hside
      by_cases ht : bar.high ≥ sp
      · by_cases hc : bar.low ≤ lp <;>
          simp [try_fill, h, hsp, hlp, hside, pyUpper_BUY, ht, hc]
      · simp [try_fill, h, hsp, hlp, hside, pyUpper_BUY, ht]
    · intro hside
      by_cases ht : bar.low ≤ sp
      · by_cases hc : bar.high ≥ lp <;>
          simp [try_fill, h, hsp, hlp, hside, pyUpper_SELL, ht, hc]
      · simp [try_fill, h, hsp, hlp, hside, pyUpper_SELL, ht]
  · intro h
    push_neg at h
    obtain ⟨h1, h2, h3, h4⟩ := h
    simp [try_fill, h1, h2, h3, h4]

/-- Witness for **C2**: the fill rules evaluated at concrete orders and the
repository's own test bar (MKT at the open; BUY LMT 99 fills since
`low = 95 ≤ 99`; BUY STP 110 does not fill since `high = 105 < 110`). -/
theorem c2_backtest_fill_rules_witness :
    try_fill mktReq bar1 = .ok (some 100) ∧
    try_fill { mktReq with order_type := "LMT", limit_price := some 99 } bar1 =
      .ok (some 99) ∧
    try_fill { mktReq with order_type := "STP", stop_price := some 110 } bar1 =
      .ok none := by
  refine ⟨?_, ?_, ?_⟩
  · have h := (c2_backtest_fill_rules mktReq bar1).1 rfl
    simpa [bar1] using h
  · have h := ((c2_backtest_fill_rules
      { mktReq with order_type := "LMT", limit_price := some 99 } bar1).2.1
      rfl 99 rfl).1 rfl
    simpa [bar1] using h
  · have h := ((c2_backtest_fill_rules
      { mktReq with order_type := "STP", stop_price := some 110 } bar1).2.2.1
      rfl 110 rfl).1 rfl
    simpa [bar1] using h


set_option maxHeartbeats 1000000 in
/-- **C4.** `validate_order_request` accepts a request (that normalizes,
i.e. whose instrument is valid) exactly when: side is BUY or SELL; quantity
is positive; the order type is one of MKT/LMT/STP/STPLMT; a LMT order
carries a positive limit price; a STP order carries a positive stop price; a
STPLMT order carries both; `tif` is non-empty; and a GTD `tif` carries a
(non-empty) `good_till_date`.  Every rejection is an InvalidInput
(`ValueError`) and an accepted request is returned in normalized form. -/
theorem c4_validate_order_request (req r : OrderRequest)
    (hn : req.normalized = Except.ok r) :
    (validate_order_request req = Except.ok r ↔
      (r.side = "BUY" ∨ r.side = "SELL") ∧
      0 < r.quantity ∧
      (r.order_type = "MKT" ∨ r.order_type = "LMT" ∨ r.order_type = "STP" ∨
        r.order_type = "STPLMT") ∧
      (r.order_type = "LMT" → ∃ lp, r.limit_price = some lp ∧ 0 < lp) ∧
      (r.order_type = "STP" → ∃ sp, r.stop_price = some sp ∧ 0 < sp) ∧
      (r.order_type = "STPLMT" →
        (∃ sp, r.stop_price = some sp ∧ 0 < sp) ∧
        (∃ lp, r.limit_price = some lp ∧ 0 < lp)) ∧
      r.tif ≠ "" ∧
      (r.tif = "GTD" → ∃ d, r.good_till_date = some d ∧ d ≠ "")) ∧
    (∀ e, validate_order_request req = Except.error e →
      ∃ msg, e = PyErr.valueError msg) ∧
    (∀ x, validate_order_request req = Except.ok x → x = r) := by
  have hv : validate_order_request req = order_checks r := by
    rw [validate_order_request, hn]
  rw [hv]
  refine ⟨?_, ?_, ?_⟩
  · constructor
    · intro h
      rw [order_checks] at h
      split_ifs at h with h1 h2 h3 h4 h5 h6 h7 h8 h9 h10 <;> try simp at h
      push_neg at h1
      refine ⟨by tauto, not_le.mp h2, by tauto, ?_, ?_, ?_, h9, ?_⟩
      · intro hL
        rcases hl : r.limit_price with _ | lp
        · exact absurd ⟨hL, hl⟩ h4
        · refine ⟨lp, rfl, ?_⟩
          by_contra hle
          exact h5 ⟨hL, by simp [hl, le_of_not_lt hle]⟩
      · intro hS
        rcases hs : r.stop_price with _ | sp
        · exact absurd ⟨hS, Or.inl hs⟩ h6
        · refine ⟨sp, rfl, ?_⟩
          by_contra hle
          exact h6 ⟨hS, Or.inr (by simp [hs, le_of_not_lt hle])⟩
      · intro hS
        constructor
        · rcases hs : r.stop_price with _ | sp
          · exact absurd ⟨hS, Or.inl hs⟩ h7
          · refine ⟨sp, rfl, ?_⟩
            by_contra hle
            exact h7 ⟨hS, Or.inr (by simp [hs, le_of_not_lt hle])⟩
        · rcases hl : r.limit_price with _ | lp
          · exact absurd ⟨hS, Or.inl hl⟩ h8
          · refine ⟨lp, rfl, ?_⟩
            by_contra hle
            exact h8 ⟨hS, Or.inr (by simp [hl, le_of_not_lt hle])⟩
      · intro hG
        rcases hd : r.good_till_date with _ | d
        · exact absurd ⟨hG, by simp [hd]⟩ h10
        · refine ⟨d, rfl, ?_⟩
          intro hde
          exact h10 ⟨hG, by simp [hd, hde]⟩
    · rintro ⟨c1, c2, c3, c4, c5, c6, c7, c8⟩
      rw [order_checks]
      have g4 : ¬(r.order_type = "LMT" ∧ r.limit_price = none) := by
        rintro ⟨hL, hl⟩
        obtain ⟨lp, hlp, -⟩ := c4 hL
        simp [hl] at hlp
      have g5 : ¬(r.order_type = "LMT" ∧ r.limit_price.getD 1 ≤ 0) := by
        rintro ⟨hL, hle⟩
        obtain ⟨lp, hlp, hpos⟩ := c4 hL
        rw [hlp] at hle
        simp at hle
        exact absurd hpos (not_lt.mpr hle)
      have g6 : ¬(r.order_type = "STP" ∧
          (r.stop_price = none ∨ r.stop_price.getD 1 ≤ 0)) := by
        rintro ⟨hS, hor⟩
        obtain ⟨sp, hsp, hpos⟩ := c5 hS
        rcases hor with h | h
        · simp [h] at hsp
        · rw [hsp] at h
          simp at h
          exact absurd hpos (not_lt.mpr h)
      have g7 : ¬(r.order_type = "STPLMT" ∧
          (r.stop_price = none ∨ r.stop_price.getD 1 ≤ 0)) := by
        rintro ⟨hS, hor⟩
        obtain ⟨⟨sp, hsp, hpos⟩, -⟩ := c6 hS
        rcases hor with h | h
        · simp [h] at hsp
        · rw [hsp] at h
          simp at h
          exact absurd hpos (not_lt.mpr h)
      have g8 : ¬(r.order_type = "STPLMT" ∧
          (r.limit_price = none ∨ r.limit_price.getD 1 ≤ 0)) := by
        rintro ⟨hS, hor⟩
        obtain ⟨-, lp, hlp, hpos⟩ := c6 hS
        rcases hor with h | h
        · simp [h] at hlp
        · rw [hlp] at h
          simp at h
          exact absurd hpos (not_lt.mpr h)
      have g10 : ¬(r.tif = "GTD" ∧ r.good_till_date.getD "" = "") := by
        rintro ⟨hG, hd⟩
        obtain ⟨d, hdd, hne⟩ := c8 hG
        rw [hdd] at hd
        simp at hd
        exact hne hd
      simp only [if_neg (not_not_intro c1), if_neg (not_le.mpr c2),
        if_neg (not_not_intro c3), if_neg g4, if_neg g5, if_neg g6, if_neg g7,
        if_neg g8, if_neg c7, if_neg g10]
  · intro e he
    rw [order_checks] at he
    split_ifs at he <;> simp_all <;> exact ⟨_, he.symm⟩
  · intro x hx
    rw [order_checks] at hx
    split_ifs at hx <;> simp_all

/-- Witness for **C4**: the BUY 1 MKT AAPL fixture normalizes, satisfies the
acceptance conditions, and is accepted in normalized form. -/
theorem c4_validate_order_request_witness :
    validate_order_request mktReq = Except.ok { mktReq with instrument := aaplV } := by
  have hn : mktReq.normalized = Except.ok { mktReq with instrument := aaplV } := by
    decide
  exact (c4_validate_order_request mktReq _ hn).1.mpr
    ⟨Or.inl rfl, by decide, Or.inl rfl, fun hh => absurd hh (by decide),
     fun hh => absurd hh (by decide), fun hh => absurd hh (by decide),
     by decide, fun hh => absurd hh (by decide)⟩

/-- **C6 counterexample.** On a connected `SimBroker`, place an order (its
status is immediately Filled, and the order list has one entry), then modify
it: the returned status is the unchanged "Filled", the status map is
unchanged — but the new request *is* appended to the order list (length 2),
contradicting the claim that the append happens only in the non-terminal
case. -/
theorem c6_sim_modify_counterexample :
    ((sim0.connect.place_order mktReq).bind (fun p =>
      (p.2.modify_order p.1.order_id mktReq).map (fun q =>
        (p.1.status, q.1.status, p.2.orders.length, q.2.orders.length,
         decide (q.2.statuses = p.2.statuses))))) =
      Except.ok ("Filled", "Filled", 1, 2, true) := by
  decide

/-- **C6 (amended).** `SimBroker.modify_order` on a connected broker:
an unknown order ID fails with NotFound (`KeyError`); for a known ID the
validated new request is appended to the order list *unconditionally*
(also when the current status is terminal); when the current status is
Filled or Cancelled the unchanged terminal status is returned and the
status map is untouched; otherwise the status becomes Submitted (keeping
the prior fill fields) and the new status is returned. -/
theorem c6_sim_modify_order (st : SimState) (oid oid2 : ℕ)
    (new_req r : OrderRequest) (cur : OrderStatus)
    (hc : st.connected = true)
    (hs : assocGet st.statuses oid = some cur)
    (hvr : validate_order_request new_req = Except.ok r) :
    (cur.status = "Filled" ∨ cur.status = "Cancelled" →
      st.modify_order oid new_req =
        Except.ok (⟨oid, cur.status⟩, { st with orders := st.orders ++ [r] })) ∧
    (¬(cur.status = "Filled" ∨ cur.status = "Cancelled") →
      st.modify_order oid new_req =
        Except.ok (⟨oid, "Submitted"⟩,
          { st with orders := st.orders ++ [r],
                    statuses := assocSet st.statuses oid
                      ⟨oid, "Submitted", cur.filled, cur.remaining,
                       cur.avg_fill_price⟩ })) ∧
    (assocGet st.statuses oid2 = none →
      st.modify_order oid2 new_req =
        Except.error (.keyError ("Unknown order_id: " ++ toString oid2))) := by
  refine ⟨?_, ?_, ?_⟩
  · intro hterm
    rw [SimState.modify_order]
    simp [hc, hs, hvr, hterm]
  · intro hterm
    rw [SimState.modify_order]
    simp [hc, hs, hvr, hterm]
  · intro hnone
    rw [SimState.modify_order]
    simp [hc, hnone]

/-- Witness for **C6 (amended)**: modifying the Filled order of the
one-order connected sim broker returns the terminal status and appends the
validated request. -/
theorem c6_sim_modify_order_witness :
    simFilled.modify_order 0 mktReq =
      Except.ok (⟨0, "Filled"⟩, { simFilled with orders := simFilled.orders ++ [mktReqN] }) := by
  exact (c6_sim_modify_order simFilled 0 0 mktReq mktReqN
    ⟨0, "Filled", some 1, some 0, none⟩ rfl (by decide) (by decide)).1 (Or.inl rfl)

/-- **C5 counterexample.** On the one-bar backtest broker: connect, place a
BUY 1 MKT order, `step()` (the order fills at `bar1.open`, status Filled),
then `cancel_order` on the *Filled* order: its status becomes Cancelled.
`cancel_order` is not a no-op on a terminal order, and a Filled → Cancelled
transition is reachable, contradicting the claim. -/
theorem c5_backtest_cancel_counterexample :
    ((bt1.connect.bind (fun st => st.place_order mktReq)).bind (fun p =>
      p.2.step.bind (fun q =>
        (q.2.get_order_status 0).bind (fun before =>
          (q.2.cancel_order 0).bind (fun st' =>
            (st'.get_order_status 0).map (fun later =>
              (before.status, later.status))))))) =
      Except.ok ("Filled", "Cancelled") := by
  decide

/-- **C5 (amended).** `BacktestBroker.cancel_order` on a connected broker:
an unknown order ID fails with NotFound (`KeyError`); a known ID is
*unconditionally* removed from the open set and its status rewritten to
Cancelled with the prior `filled`/`remaining`/`avg_fill_price` preserved —
also when the current status is already terminal (Filled or Cancelled), so
cancelling a Filled order transitions it to Cancelled. -/
theorem c5_backtest_cancel_order (st : BTState) (oid oid2 : ℕ)
    (req : OrderRequest) (cur : OrderStatus)
    (hc : st.connected = true)
    (ho : assocGet st.orders oid = some req)
    (hs : assocGet st.statuses oid = some cur) :
    st.cancel_order oid =
      Except.ok { st with openOrders := st.openOrders.erase oid,
                          statuses := assocSet st.statuses oid
                            ⟨oid, "Cancelled", cur.filled, cur.remaining,
                             cur.avg_fill_price⟩ } ∧
    (assocGet st.orders oid2 = none →
      st.cancel_order oid2 =
        Except.error (.keyError ("Unknown order_id: " ++ toString oid2))) := by
  constructor
  · rw [BTState.cancel_order]
    simp [hc, ho, hs]
  · intro hnone
    rw [BTState.cancel_order]
    simp [hc, hnone]

/-- Witness for **C5 (amended)**: cancelling the Filled order of the
one-order backtest broker rewrites its status to Cancelled, keeping the fill
fields. -/
theorem c5_backtest_cancel_order_witness :
    btFilled.cancel_order 0 =
      Except.ok
        { btFilled with
          openOrders := btFilled.openOrders.erase 0,
          statuses :=
            assocSet btFilled.statuses 0 ⟨0, "Cancelled", some 1, some 0, some 100⟩ } := by
  exact (c5_backtest_cancel_order btFilled 0 0 mktReqN
    ⟨0, "Filled", some 1, some 0, some 100⟩ rfl (by decide) (by decide)).1

/-- **C1.** (Exhibit for the missing guard.)  Every broker operation is
supposed to fail with NotConnected on a disconnected broker, and every
`SimBroker`/`BacktestBroker` operation does begin with that guard — except
`BacktestBroker.get_historical_bars`, which has no connected check: on a
*disconnected* mid-run backtest broker it succeeds and returns the bar
prefix (here `[bar1]`), while a neighbouring operation on the same state
raises NotConnected. -/
theorem c1_disconnected_backtest_history_not_guarded :
    (btFilled.disconnect).connected = false ∧
    (btFilled.disconnect).get_historical_bars aapl = Except.ok [bar1] ∧
    (btFilled.disconnect).get_order_status 0 = Except.error notConnectedErr := by
  refine ⟨rfl, by decide, by decide⟩

theorem try_fill_safe (req : OrderRequest) (bar : Bar) (h : ReqFillSafe req) :
    ∃ o, try_fill req bar = Except.ok o := by
  obtain ⟨h1, h2, h3⟩ := h
  rw [try_fill]
  by_cases hM : req.order_type = "MKT"
  · rw [if_pos hM]
    exact ⟨_, rfl⟩
  · rw [if_neg hM]
    by_cases hL : req.order_type = "LMT"
    · rw [if_pos hL]
      rcases hl : req.limit_price with _ | lp
      · exact absurd hl (h1 hL)
      · dsimp only
        split_ifs <;> exact ⟨_, rfl⟩
    · rw [if_neg hL]
      by_cases hS : req.order_type = "STP"
      · rw [if_pos hS]
        rcases hs : req.stop_price with _ | sp
        · exact absurd hs (h2 hS)
        · dsimp only
          split_ifs <;> exact ⟨_, rfl⟩
      · rw [if_neg hS]
        by_cases hSL : req.order_type = "STPLMT"
        · rw [if_pos hSL]
          obtain ⟨hsn, hln⟩ := h3 hSL
          rcases hs : req.stop_price with _ | sp
          · exact absurd hs hsn
          · rcases hl : req.limit_price with _ | lp
            · exact absurd hl hln
            · dsimp only
              split_ifs <;> exact ⟨_, rfl⟩
        · rw [if_neg hSL]
          exact ⟨_, rfl⟩

theorem fillLoop_ok (bar : Bar) (l : List ℕ) (st : BTState)
    (h : ∀ oid ∈ l, ∃ req, assocGet st.orders oid = some req ∧ ReqFillSafe req) :
    ∃ st', fillLoop bar l st = Except.ok st' ∧
      st'.orders = st.orders ∧ st'.bars = st.bars ∧ st'.i = st.i ∧
      st'.connected = st.connected ∧ st'.instrument = st.instrument ∧
      (∀ oid, oid ∈ st'.openOrders → oid ∈ st.openOrders) := by
  induction l generalizing st with
  | nil => exact ⟨st, rfl, rfl, rfl, rfl, rfl, rfl, fun _ hm => hm⟩
  | cons oid rest ih =>
    obtain ⟨req, hreq, hsafe⟩ := h oid (List.mem_cons_self oid rest)
    obtain ⟨o, ho⟩ := try_fill_safe req bar hsafe
    rcases o with _ | price
    · have hrest : ∀ x ∈ rest, ∃ req, assocGet st.orders x = some req ∧
          ReqFillSafe req := fun x hx => h x (List.mem_cons_of_mem oid hx)
      obtain ⟨st', hst', ho', hb', hi', hc', hinst', hop'⟩ := ih st hrest
      refine ⟨st', ?_, ho', hb', hi', hc', hinst', hop'⟩
      rw [fillLoop, hreq]
      simp only [ho]
      exact hst'
    · set st2 : BTState :=
        { (st.apply_fill req.side req.quantity
            (st.fill_model.apply_slippage price req.side)
            st.fill_model.commission_per_order) with
          openOrders := ((st.apply_fill req.side req.quantity
            (st.fill_model.apply_slippage price req.side)
            st.fill_model.commission_per_order).openOrders).erase oid,
          statuses := assocSet (st.apply_fill req.side req.quantity
            (st.fill_model.apply_slippage price req.side)
            st.fill_model.commission_per_order).statuses oid
            ⟨oid, "Filled", some req.quantity, some 0,
             some (st.fill_model.apply_slippage price req.side)⟩ } with hst2
      have happly : ∀ s side q p c, (BTState.apply_fill s side q p c).orders = s.orders ∧
          (BTState.apply_fill s side q p c).bars = s.bars ∧
          (BTState.apply_fill s side q p c).i = s.i ∧
          (BTState.apply_fill s side q p c).connected = s.connected ∧
          (BTState.apply_fill s side q p c).instrument = s.instrument ∧
          (BTState.apply_fill s side q p c).openOrders = s.openOrders ∧
          (BTState.apply_fill s side q p c).statuses = s.statuses := by
        intro s side q p c
        rw [BTState.apply_fill]
        exact ⟨rfl, rfl, rfl, rfl, rfl, rfl, rfl⟩
      obtain ⟨ha1, ha2, ha3, ha4, ha5, ha6, ha7⟩ :=
        happly st req.side req.quantity
          (st.fill_model.apply_slippage price req.side)
          st.fill_model.commission_per_order
      have hrest : ∀ x ∈ rest, ∃ req, assocGet st2.orders x = some req ∧
          ReqFillSafe req := by
        intro x hx
        have := h x (List.mem_cons_of_mem oid hx)
        simpa [hst2, ha1] using this
      obtain ⟨st', hst', ho', hb', hi', hc', hinst', hop'⟩ := ih st2 hrest
      refine ⟨st', ?_, ?_, ?_, ?_, ?_, ?_, ?_⟩
      · rw [fillLoop, hreq]
        simp only [ho]
        exact hst'
      · rw [ho']; simp [hst2, ha1]
      · rw [hb']; simp [hst2, ha2]
      · rw [hi']; simp [hst2, ha3]
      · rw [hc']; simp [hst2, ha4]
      · rw [hinst']; simp [hst2, ha5]
      · intro x hx
        have hx2 := hop' x hx
        have : x ∈ st2.openOrders := hx2
        rw [hst2] at this
        simp only [ha6] at this
        exact List.mem_of_mem_erase this

theorem step_ok (st : BTState) (hc : st.connected = true) (hs : OpenSafe st) :
    ∃ b st', st.step = Except.ok (b, st') ∧ st'.bars = st.bars ∧
      st'.instrument = st.instrument ∧ st'.connected = true ∧
      st'.orders = st.orders ∧
      st'.i = (if st.bars.length ≤ st.i then st.i else st.i + 1) ∧
      OpenSafe st' := by
  by_cases hlen : st.bars.length ≤ st.i
  · refine ⟨false, st, ?_, rfl, rfl, hc, rfl, (if_pos hlen).symm, hs⟩
    rw [BTState.step, if_neg (by simp [hc]), if_pos hlen]
  · have hlt : st.i < st.bars.length := lt_of_not_le hlen
    obtain ⟨st1, hst1, ho1, hb1, hi1, hc1, hinst1, hop1⟩ :=
      fillLoop_ok (st.bars.get ⟨st.i, hlt⟩) st.openOrders st hs
    refine ⟨decide (st1.i + 1 < st1.bars.length), { st1 with i := st1.i + 1 },
      ?_, hb1, hinst1, by rw [hc1, hc], ho1, ?_, ?_⟩
    · rw [BTState.step, if_neg (by simp [hc]), if_neg hlen,
        List.get?_eq_get hlt]
      show Bind.bind (st.fill_open_orders _) _ = _
      rw [BTState.fill_open_orders, hst1]
      rfl
    · simp only [if_neg hlen, hi1]
    · intro oid hmem
      obtain ⟨req, hr, hsafe⟩ := hs oid (hop1 oid hmem)
      exact ⟨req, by rw [ho1]; exact hr, hsafe⟩

theorem runSteps_ok (k : ℕ) (st : BTState) (hc : st.connected = true)
    (hs : OpenSafe st) (hin : st.i ≤ st.bars.length) :
    ∃ st', runSteps k st = Except.ok st' ∧ st'.bars = st.bars ∧
      st'.instrument = st.instrument ∧ st'.connected = true ∧
      st'.i = min (st.i + k) st.bars.length ∧ OpenSafe st' := by
  induction k generalizing st with
  | zero => exact ⟨st, rfl, rfl, rfl, hc, by omega, hs⟩
  | succ k ih =>
    obtain ⟨b, st1, hstep, hb, hinst, hc1, ho, hi, hs1⟩ := step_ok st hc hs
    have hin1 : st1.i ≤ st1.bars.length := by
      rw [hb, hi]
      split_ifs <;> omega
    obtain ⟨st', hrun, hb', hinst', hc', hi', hs'⟩ := ih st1 hc1 hs1 hin1
    refine ⟨st', ?_, by rw [hb', hb], by rw [hinst', hinst], hc', ?_, hs'⟩
    · simp only [runSteps, hstep]
      exact hrun
    · rw [hi', hb, hi]
      split_ifs <;> omega

/-- **C10.** The backtest broker's historical-data interface cannot look
ahead: (i) for the broker's own instrument, `get_historical_bars` returns
exactly `bars[0 : i]`, the prefix strictly before the cursor; (ii)
`connect()` resets the cursor to 0 (so history is empty before the first
`step()`); (iii) after `connect()` and `k` `step()` calls, the cursor sits
at `min k (number of bars)` and history is exactly the bars strictly before
it — bars at or beyond the cursor are never exposed. -/
theorem c10_backtest_history_no_lookahead :
    (∀ (st : BTState) (inst : InstrumentSpec),
      validate_instrument inst = Except.ok st.instrument →
      st.get_historical_bars inst = Except.ok (st.bars.take st.i)) ∧
    (∀ b c : BTState, b.connect = Except.ok c →
      c.i = 0 ∧ c.bars = b.bars ∧ c.connected = true ∧
      c.orders = b.orders ∧ c.openOrders = b.openOrders) ∧
    (∀ (b c st' : BTState) (k : ℕ) (inst : InstrumentSpec),
      b.connect = Except.ok c → OpenSafe c → runSteps k c = Except.ok st' →
      validate_instrument inst = Except.ok st'.instrument →
      st'.i = min k st'.bars.length ∧
      st'.get_historical_bars inst =
        Except.ok (st'.bars.take (min k st'.bars.length))) := by
  have hist : ∀ (st : BTState) (inst : InstrumentSpec),
      validate_instrument inst = Except.ok st.instrument →
      st.get_historical_bars inst = Except.ok (st.bars.take st.i) := by
    intro st inst hv
    rw [BTState.get_historical_bars, hv]
    simp
  have conn : ∀ b c : BTState, b.connect = Except.ok c →
      c.i = 0 ∧ c.bars = b.bars ∧ c.connected = true ∧
      c.orders = b.orders ∧ c.openOrders = b.openOrders := by
    intro b c h
    rw [BTState.connect] at h
    rcases hvv : validate_instrument b.instrument with e | v <;> rw [hvv] at h
    · exact absurd h (by simp)
    · obtain rfl := (Except.ok.inj h)
      exact ⟨rfl, rfl, rfl, rfl, rfl⟩
  refine ⟨hist, conn, ?_⟩
  intro b c st' k inst hconn hsafe hrun hv
  obtain ⟨hi0, hbars, hcon, -, -⟩ := conn b c hconn
  obtain ⟨st'', hrun', hb', hinst', hc', hi', hs'⟩ :=
    runSteps_ok k c hcon hsafe (by omega)
  rw [hrun] at hrun'
  have heq : st' = st'' := Except.ok.inj hrun'
  have hi'' : st'.i = min k st'.bars.length := by
    rw [heq, hi', hi0, hb']
    omega
  exact ⟨hi'', by rw [← hi'']; exact hist st' inst hv⟩

/-- Witness for **C10**: on the two-bar broker, after `connect()` and one
`step()` the cursor is 1 and history for AAPL is exactly `[bar1]`. -/
theorem c10_backtest_history_no_lookahead_witness :
    bt2s.i = min 1 bt2s.bars.length ∧
    bt2s.get_historical_bars aapl =
      Except.ok (bt2s.bars.take (min 1 bt2s.bars.length)) := by
  have hsafe : OpenSafe bt2c := fun oid hmem => absurd hmem (by simp [bt2c])
  exact c10_backtest_history_no_lookahead.2.2 bt2 bt2c bt2s 1 aapl
    (by decide) hsafe (by decide) (by decide)

/-- **C3.** The `place_order` branch of `dispatch_tool`: once the order
object has parsed to a request, a kind that is not (case-insensitively) in
`allowed_kinds`, or — when `allowed_symbols` is non-empty — a symbol that is
not (case-insensitively) a member, makes the dispatch fail with a
`ToolError` and `oms.submit` is never invoked (the recorded submit list is
empty); when the kind is allowed and either `allowed_symbols` is empty (no
symbol restriction) or the symbol is a member, the call reaches `oms.submit`
exactly once, with the parsed request. -/
theorem c3_dispatch_place_order_allowlist (parsed : Except PyErr OrderRequest)
    (req : OrderRequest) (submit : OrderRequest → OrderResult)
    (allowed_kinds allowed_symbols : List String)
    (hp : parsed = Except.ok req) :
    (pyUpper req.instrument.kind ∉ allowed_kinds.map pyUpper →
      dispatch_place_order parsed submit allowed_kinds allowed_symbols =
        (Except.error (.toolError ("Instrument kind not allowed: " ++
          req.instrument.kind)), [])) ∧
    (pyUpper req.instrument.kind ∈ allowed_kinds.map pyUpper →
      allowed_symbols ≠ [] →
      pyUpper req.instrument.symbol ∉ allowed_symbols.map pyUpper →
      dispatch_place_order parsed submit allowed_kinds allowed_symbols =
        (Except.error (.toolError ("Symbol not allowed: " ++
          req.instrument.symbol)), [])) ∧
    (pyUpper req.instrument.kind ∈ allowed_kinds.map pyUpper →
      (allowed_symbols = [] ∨
        pyUpper req.instrument.symbol ∈ allowed_symbols.map pyUpper) →
      dispatch_place_order parsed submit allowed_kinds allowed_symbols =
        (Except.ok (submit req), [req])) := by
  subst hp
  refine ⟨?_, ?_, ?_⟩
  · intro hkind
    rw [dispatch_place_order, enforce_allowlist]
    rw [if_pos hkind]
  · intro hkind hne hsym
    rw [dispatch_place_order, enforce_allowlist]
    rw [if_neg (not_not_intro hkind), if_pos ⟨hne, hsym⟩]
  · intro hkind hok
    rw [dispatch_place_order, enforce_allowlist]
    rw [if_neg (not_not_intro hkind), if_neg ?_]
    rcases hok with h | h
    · simp [h]
    · simp [h]

/-- Witness for **C3**: with `allowed_kinds = ["STK"]` and
`allowed_symbols = ["aapl"]` (note the case difference), the parsed AAPL
request is submitted exactly once. -/
theorem c3_dispatch_place_order_allowlist_witness :
    dispatch_place_order (Except.ok mktReqN) (fun _ => ⟨0, "Filled"⟩)
      ["STK"] ["aapl"] = (Except.ok ⟨0, "Filled"⟩, [mktReqN]) := by
  exact (c3_dispatch_place_order_allowlist (Except.ok mktReqN) mktReqN
    (fun _ => ⟨0, "Filled"⟩) ["STK"] ["aapl"] rfl).2.2 (by decide)
    (Or.inr (by decide))


theorem c9_validate_bars_counterexample :
    validate_bars [⟨some 1, none, some 1, some 1, some 1, none⟩] =
      Except.error PyErr.typeError := by
  decide

theorem pyChainLe_some (a b c : ℚ) :
    pyChainLe (some a) (some b) (some c) =
      Except.ok (decide (a ≤ b) && decide (b ≤ c)) := by
  by_cases hab : a ≤ b
  · simp only [pyChainLe, pyLe, decide_eq_true hab]
    rfl
  · simp only [pyChainLe, pyLe, decide_eq_false hab]
    rfl

theorem validateMainLoop_ok (bars : List BarOpt) :
    ∀ (i : ℕ) (last : Option ℚ) (issues : List ValidationIssue),
    (∀ b ∈ bars, b.open_ ≠ none ∧ b.high ≠ none ∧ b.low ≠ none ∧
      b.close ≠ none) →
    ∃ out, validateMainLoop bars i last issues = Except.ok out := by
  induction bars with
  | nil => exact fun i last issues _ => ⟨issues, rfl⟩
  | cons b rest ih =>
    intro i last issues hf
    obtain ⟨ho, hh, hl, hc⟩ := hf b (List.mem_cons_self b rest)
    have hrest : ∀ x ∈ rest, x.open_ ≠ none ∧ x.high ≠ none ∧ x.low ≠ none ∧
        x.close ≠ none := fun x hx => hf x (List.mem_cons_of_mem b hx)
    rcases hts : b.timestamp_epoch_s with _ | ts
    · simp only [validateMainLoop, hts]
      exact ih _ _ _ hrest
    · rcases hov : b.open_ with _ | o
      · exact absurd hov ho
      rcases hhv : b.high with _ | hq
      · exact absurd hhv hh
      rcases hlv : b.low with _ | lq
      · exact absurd hlv hl
      rcases hcv : b.close with _ | cq
      · exact absurd hcv hc
      simp only [validateMainLoop, hts, hhv, hlv, hov, hcv, pyLt,
        pyChainLe_some]
      exact ih _ _ _ hrest

theorem except_ok_bind {ε α β : Type} (a : α) (f : α → Except ε β) :
    (Except.ok a : Except ε α) >>= f = f a := rfl

theorem ohlcIssues_eq (i : ℕ) (ts : Option ℚ) (o h l c : ℚ) (v : Option ℚ) :
    ohlcIssues i ⟨ts, some o, some h, some l, some c, v⟩ =
      (if o ≤ 0 then [⟨"error", nonPosMsg i "open" o⟩] else []) ++
      (if h ≤ 0 then [⟨"error", nonPosMsg i "high" h⟩] else []) ++
      (if l ≤ 0 then [⟨"error", nonPosMsg i "low" l⟩] else []) ++
      (if c ≤ 0 then [⟨"error", nonPosMsg i "close" c⟩] else []) := by
  simp only [ohlcIssues, List.foldl]
  split_ifs <;> simp

theorem vml_single (ts : ℚ) (o h l c : ℚ) (v : Option ℚ) :
    validateMainLoop [⟨some ts, some o, some h, some l, some c, v⟩] 0 none [] =
      Except.ok
        (ohlcIssues 0 ⟨some ts, some o, some h, some l, some c, v⟩ ++
         (if h < l then [⟨"error", "bar[" ++ toString 0 ++ "] low > high"⟩]
          else []) ++
         (if ¬(l ≤ o ∧ o ≤ h) then
            [⟨"warn", "bar[" ++ toString 0 ++ "] open outside [low,high]"⟩]
          else []) ++
         (if ¬(l ≤ c ∧ c ≤ h) then
            [⟨"warn", "bar[" ++ toString 0 ++ "] close outside [low,high]"⟩]
          else [])) := by
  simp only [validateMainLoop, pyLt, pyChainLe_some, except_ok_bind]
  split_ifs <;>
    simp_all [decide_eq_true_eq, Bool.and_eq_true, List.append_assoc]

set_option maxHeartbeats 800000 in
/-- **C9 (amended).** `validate_bars`, on bar lists whose OHLC fields are
all present, never raises and returns an issue list; the empty list yields
exactly the one error-level issue "no bars"; a single bar is flagged
exactly for its non-positive OHLC values (errors), `low > high` (error) and
`open`/`close` outside `[low, high]` (warnings), in that order; and in a
two-bar series of well-formed bars the second bar is flagged with an
error-level sortedness issue exactly when its timestamp decreases and with
a duplicate-timestamp warning exactly when its timestamp repeats.  (On a
bar with a *missing* OHLC field the issue is recorded but the validator
then raises `TypeError` on the range comparison, so the claim's
missing-field flagging and never-raises parts cannot both hold.) -/
theorem c9_validate_bars (bars : List BarOpt) (ts1 ts2 o h l c : ℚ)
    (v : Option ℚ)
    (hf : ∀ b ∈ bars, b.open_ ≠ none ∧ b.high ≠ none ∧ b.low ≠ none ∧
      b.close ≠ none) :
    (∃ out, validate_bars bars = Except.ok out) ∧
    (validate_bars [] = Except.ok [⟨"error", "no bars"⟩]) ∧
    (validate_bars [⟨some ts1, some o, some h, some l, some c, v⟩] =
      Except.ok
        ((if o ≤ 0 then [⟨"error", nonPosMsg 0 "open" o⟩] else []) ++
         (if h ≤ 0 then [⟨"error", nonPosMsg 0 "high" h⟩] else []) ++
         (if l ≤ 0 then [⟨"error", nonPosMsg 0 "low" l⟩] else []) ++
         (if c ≤ 0 then [⟨"error", nonPosMsg 0 "close" c⟩] else []) ++
         (if h < l then [⟨"error", "bar[0] low > high"⟩] else []) ++
         (if ¬(l ≤ o ∧ o ≤ h) then [⟨"warn", "bar[0] open outside [low,high]"⟩]
          else []) ++
         (if ¬(l ≤ c ∧ c ≤ h) then [⟨"warn", "bar[0] close outside [low,high]"⟩]
          else []))) ∧
    (validate_bars [obar ts1, obar ts2] =
      Except.ok
        ((if ts2 < ts1 then [⟨"error", "timestamps not sorted at bar[1]"⟩]
          else []) ++
         (if ts2 = ts1 then [⟨"warn", "duplicate timestamp at bar[1]"⟩]
          else []))) := by
  refine ⟨?_, by decide, ?_, ?_⟩
  · rcases hbe : bars with _ | ⟨b, rest⟩
    · exact ⟨[⟨"error", "no bars"⟩], by decide⟩
    · rw [← hbe]
      obtain ⟨out, hout⟩ := validateMainLoop_ok bars 0 none [] hf
      refine ⟨dupLoop bars 0 [] out, ?_⟩
      rw [validate_bars, if_neg (by simp [hbe]), hout]
      rfl
  · rw [validate_bars, if_neg (by simp), vml_single, except_ok_bind]
    have hm1 : "bar[" ++ toString 0 ++ "] low > high" = "bar[0] low > high" :=
      by decide
    have hm2 : "bar[" ++ toString 0 ++ "] open outside [low,high]" =
        "bar[0] open outside [low,high]" := by decide
    have hm3 : "bar[" ++ toString 0 ++ "] close outside [low,high]" =
        "bar[0] close outside [low,high]" := by decide
    simp [dupLoop, ohlcIssues_eq, hm1, hm2, hm3, List.append_assoc]
  · rw [validate_bars, if_neg (by simp)]
    simp only [validateMainLoop, dupLoop, pyLt, pyChainLe_some, except_ok_bind,
      obar]
    have h2 : ohlcIssues 0 ⟨some ts1, some 1, some 2, some 1, some 2, none⟩ =
        [] := by
      rw [ohlcIssues_eq]
      norm_num
    have h3 : ohlcIssues 1 ⟨some ts2, some 1, some 2, some 1, some 2, none⟩ =
        [] := by
      rw [ohlcIssues_eq]
      norm_num
    have hm4 : "timestamps not sorted at bar[" ++ toString 1 ++ "]" =
        "timestamps not sorted at bar[1]" := by decide
    have hm5 : "duplicate timestamp at bar[" ++ toString 1 ++ "]" =
        "duplicate timestamp at bar[1]" := by decide
    simp only [h2, h3]
    norm_num
    split_ifs <;> simp_all [hm4, hm5]

/-- Witness for **C9 (amended)**: the theorem applied to the one-bar list
`[obar 1]`, timestamps `1` / `0` (a decreasing pair) and the single bar
`(o,h,l,c) = (3,2,1,5)` (open and close outside `[low, high]`). -/
theorem c9_validate_bars_witness :
    (∃ out, validate_bars [obar 1] = Except.ok out) ∧
    (validate_bars [] = Except.ok [⟨"error", "no bars"⟩]) ∧
    (validate_bars [⟨some 1, some 3, some 2, some 1, some 5, none⟩] =
      Except.ok
        ((if (3:ℚ) ≤ 0 then [⟨"error", nonPosMsg 0 "open" 3⟩] else []) ++
         (if (2:ℚ) ≤ 0 then [⟨"error", nonPosMsg 0 "high" 2⟩] else []) ++
         (if (1:ℚ) ≤ 0 then [⟨"error", nonPosMsg 0 "low" 1⟩] else []) ++
         (if (5:ℚ) ≤ 0 then [⟨"error", nonPosMsg 0 "close" 5⟩] else []) ++
         (if (2:ℚ) < 1 then [⟨"error", "bar[0] low > high"⟩] else []) ++
         (if ¬((1:ℚ) ≤ 3 ∧ (3:ℚ) ≤ 2) then
            [⟨"warn", "bar[0] open outside [low,high]"⟩] else []) ++
         (if ¬((1:ℚ) ≤ 5 ∧ (5:ℚ) ≤ 2) then
            [⟨"warn", "bar[0] close outside [low,high]"⟩] else []))) ∧
    (validate_bars [obar 1, obar 0] =
      Except.ok
        ((if (0:ℚ) < 1 then [⟨"error", "timestamps not sorted at bar[1]"⟩]
          else []) ++
         (if (0:ℚ) = 1 then [⟨"warn", "duplicate timestamp at bar[1]"⟩]
          else []))) := by
  exact c9_validate_bars [obar 1] 1 0 3 2 1 5 none
    (fun b hb => by
      rw [List.mem_singleton] at hb
      subst hb
      exact ⟨by simp [obar], by simp [obar], by simp [obar], by simp [obar]⟩)

/-- **C8.** `parse_chat_model_reply` (with the standard-library JSON parse
reflected by the oracle argument `parsed`) never raises and behaves as
claimed: a parse failure or a non-object top level returns the entire raw
text as the assistant message with no tool calls; in a well-formed reply
the `tool_calls` array is processed in order by `parseToolCallItem`, which
drops non-object entries and entries lacking a non-empty (stripped) name
and otherwise preserves the entry's name (stripped), `args` (an object kept
as is, anything else coerced to the empty object) and `id` (stringified
when present and non-null); and a single leading/trailing triple-backtick
code fence is stripped before parsing (shown on fenced and unfenced
inputs). -/
theorem c8_parse_chat_model_reply (text : String) (j : Json)
    (fields : List (String × Json)) (items : List Json)
    (f : List (String × Json)) (v : Json) :
    (parse_chat_model_reply text none = ⟨text, []⟩) ∧
    ((∀ g, j ≠ Json.obj g) → parse_chat_model_reply text (some j) = ⟨text, []⟩) ∧
    (jsonGet fields "tool_calls" = some (Json.arr items) →
      (parse_chat_model_reply text (some (Json.obj fields))).tool_calls =
        items.filterMap parseToolCallItem) ∧
    ((∀ g, v ≠ Json.obj g) → parseToolCallItem v = none) ∧
    ((jsonGet f "name" = none ∨
        (∃ w, jsonGet f "name" = some w ∧ pyStrip (pyStr w) = "")) →
      parseToolCallItem (Json.obj f) = none) ∧
    (∀ w, jsonGet f "name" = some w → pyStrip (pyStr w) ≠ "" →
      ((parseToolCallItem (Json.obj f)).map ToolCall.name =
        some (pyStrip (pyStr w)) ∧
       (∀ a, jsonGet f "args" = some (Json.obj a) →
         (parseToolCallItem (Json.obj f)).map ToolCall.args =
           some (Json.obj a)) ∧
       ((∀ a, jsonGet f "args" ≠ some (Json.obj a)) →
         (parseToolCallItem (Json.obj f)).map ToolCall.args =
           some (Json.obj [])) ∧
       (jsonGet f "id" = none →
         (parseToolCallItem (Json.obj f)).map ToolCall.call_id = some none) ∧
       (jsonGet f "id" = some Json.null →
         (parseToolCallItem (Json.obj f)).map ToolCall.call_id = some none) ∧
       (∀ s, jsonGet f "id" = some (Json.str s) →
         (parseToolCallItem (Json.obj f)).map ToolCall.call_id =
           some (some s)))) ∧
    (strip_code_fences "```json\nA\n```" = "A" ∧
     strip_code_fences "```\nB C\nD\n```" = "B C\nD" ∧
     strip_code_fences "hello" = "hello" ∧
     strip_code_fences "```json\nA" = "```json\nA") := by
  have h0 : pyStrip "" = "" := by decide
  refine ⟨rfl, ?_, ?_, ?_, ?_, ?_, ?_⟩
  · intro hobj
    cases j <;> first | rfl | exact absurd rfl (hobj _)
  · intro htc
    rcases items with _ | ⟨itm, rest⟩ <;>
      simp [parse_chat_model_reply, htc, pyTruthy]
  · intro hobj
    cases v <;> first | rfl | exact absurd rfl (hobj _)
  · intro hname
    rcases hname with hn | ⟨w, hw, hws⟩
    · simp [parseToolCallItem, hn, h0]
    · simp [parseToolCallItem, hw, hws]
  · intro w hw hne
    refine ⟨by simp [parseToolCallItem, hw, hne], ?_, ?_, ?_, ?_, ?_⟩
    · intro a ha
      simp [parseToolCallItem, hw, hne, ha]
    · intro ha
      rcases hid : jsonGet f "args" with _ | a
      · simp [parseToolCallItem, hw, hne, hid]
      · cases a <;> simp [parseToolCallItem, hw, hne, hid] <;>
          exact absurd hid (by simpa using ha _)
    · intro hid
      simp [parseToolCallItem, hw, hne, hid]
    · intro hid
      simp [parseToolCallItem, hw, hne, hid]
    · intro s hid
      simp [parseToolCallItem, hw, hne, hid,
        show pyStr (Json.str s) = s from rfl]
  · exact ⟨by decide, by decide, by decide, by decide⟩

/-- Witness for **C8**: the parser applied to a parse failure, to the
concrete three-entry reply (the padded name is stripped, the nameless and
non-object entries are dropped, args and id survive), and to a fenced
input. -/
theorem c8_parse_chat_model_reply_witness :
    parse_chat_model_reply "oops" none = ⟨"oops", []⟩ ∧
    (parse_chat_model_reply "t" (some (Json.obj chatFields))).tool_calls =
      [tcGood, tcBad, Json.str "x"].filterMap parseToolCallItem ∧
    [tcGood, tcBad, Json.str "x"].filterMap parseToolCallItem =
      [⟨"place_order", Json.obj [("qty", Json.num 1)], some "c1"⟩] ∧
    strip_code_fences "```json\nA\n```" = "A" := by
  refine ⟨(c8_parse_chat_model_reply "oops" Json.null [] [] [] Json.null).1,
    ?_, rfl, ?_⟩
  · exact (c8_parse_chat_model_reply "t" Json.null chatFields
      [tcGood, tcBad, Json.str "x"] [] Json.null).2.2.1 rfl
  · exact (c8_parse_chat_model_reply "t" Json.null [] [] [] Json.null
      ).2.2.2.2.2.2.1

/-- **C7 counterexample.** Export followed by load is *not* a closed round
trip: a broker whose (single) bar carries the fractional timestamp `1/2`
exports it with the truncated integer timestamp `0`, so reloading the
written CSV yields a different bar series. -/
theorem c7_export_round_trip_counterexample :
    load_bars_csv (writeCsv (exportAllBars halfGetBars 10 none)) ≠
      Except.ok (exportAllBars halfGetBars 10 none) := by
  decide

theorem exportAllBars_sorted (getBars : Option String → List Bar)
    (max_calls : ℕ) (end_dt : Option String) :
    List.Sorted barLe (exportAllBars getBars max_calls end_dt) := by
  rw [exportAllBars, sortBars]
  exact List.sorted_insertionSort barLe _

theorem dedupMerge_pairwise_ne (chunk : List Bar) :
    ∀ acc : List Bar,
    List.Pairwise (fun a b : Bar =>
      a.timestamp_epoch_s ≠ b.timestamp_epoch_s) acc →
    List.Pairwise (fun a b : Bar =>
      a.timestamp_epoch_s ≠ b.timestamp_epoch_s) (dedupMerge acc chunk) := by
  induction chunk with
  | nil => exact fun acc h => h
  | cons b rest ih =>
    intro acc h
    rw [dedupMerge, List.foldl_cons]
    by_cases hb : acc.any (fun x => x.timestamp_epoch_s = b.timestamp_epoch_s)
    · rw [if_pos hb]
      exact ih acc h
    · rw [if_neg hb]
      refine ih (acc ++ [b]) ?_
      rw [List.pairwise_append]
      refine ⟨h, List.pairwise_singleton _ _, ?_⟩
      intro x hx y hy
      rw [List.mem_singleton] at hy
      subst hy
      intro hxy
      exact hb (List.any_eq_true.mpr ⟨x, hx, by simp [hxy]⟩)

theorem sortBars_pairwise_ne (l : List Bar)
    (h : List.Pairwise (fun a b : Bar =>
      a.timestamp_epoch_s ≠ b.timestamp_epoch_s) l) :
    List.Pairwise (fun a b : Bar =>
      a.timestamp_epoch_s ≠ b.timestamp_epoch_s) (sortBars l) := by
  rw [sortBars]
  exact ((List.perm_insertionSort barLe l).pairwise_iff
    (fun hab => Ne.symm hab)).mpr h

theorem exportLoop_pairwise_ne (getBars : Option String → List Bar) :
    ∀ (n : ℕ) (endDt : Option String) (acc : List Bar),
    List.Pairwise (fun a b : Bar =>
      a.timestamp_epoch_s ≠ b.timestamp_epoch_s) acc →
    List.Pairwise (fun a b : Bar =>
      a.timestamp_epoch_s ≠ b.timestamp_epoch_s)
      (exportLoop getBars n endDt acc) := by
  intro n
  induction n with
  | zero => exact fun endDt acc h => h
  | succ n ih =>
    intro endDt acc h
    rw [exportLoop]
    by_cases hc : getBars endDt = []
    · rw [if_pos hc]
      exact h
    · rw [if_neg hc]
      have h2 := sortBars_pairwise_ne (dedupMerge acc (getBars endDt))
        (dedupMerge_pairwise_ne (getBars endDt) acc h)
      dsimp only
      rcases hh : (sortBars (dedupMerge acc (getBars endDt))).head? with _ | e
      · exact h2
      · exact ih _ _ h2

theorem load_writeCsv (bars : List Bar) (hs : List.Sorted barLe bars)
    (hden : ∀ b ∈ bars, b.timestamp_epoch_s.den = 1) :
    load_bars_csv (writeCsv bars) = Except.ok bars := by
  rw [load_bars_csv, writeCsv]
  dsimp only
  split_ifs with hcond
  · have hmap : (writeCsvRows bars).map (fun r : CsvRow =>
        (⟨(r.timestamp : ℚ), r.open_, r.high, r.low, r.close, r.volume⟩ : Bar)) =
        bars := by
      rw [writeCsvRows, List.map_map]
      have hall : ∀ b ∈ bars,
          ((fun r : CsvRow =>
            (⟨(r.timestamp : ℚ), r.open_, r.high, r.low, r.close, r.volume⟩ : Bar)) ∘
           (fun b : Bar =>
            (⟨pyInt b.timestamp_epoch_s, b.open_, b.high, b.low, b.close,
              b.volume⟩ : CsvRow))) b = id b := by
        intro b hb
        have hd := hden b hb
        simp only [Function.comp, id]
        have hts : ((pyInt b.timestamp_epoch_s : ℤ) : ℚ) = b.timestamp_epoch_s := by
          rw [pyInt, hd]
          simp only [Nat.cast_one, Int.tdiv_one]
          exact Rat.coe_int_num_of_den_eq_one hd
        rw [hts]
      rw [List.map_congr_left hall, List.map_id]
    rw [hmap, sortBars, hs.insertionSort_eq]
  · exact absurd (show (["timestamp", "open", "high", "low", "close"].all
      (fun col => (pySplitChar ','
        "timestamp,open,high,low,close,volume").contains col)) = true
      from by decide) hcond

/-- **C7 (amended).** The exporter writes a CSV whose header line is
exactly `timestamp,open,high,low,close,volume` and whose rows are the
accumulated bars with truncated-integer timestamps and an empty cell
(`none`) for an absent volume; the accumulated bar list is sorted by
timestamp ascending and deduplicated by timestamp (pairwise-distinct
timestamps); and reloading the written file reproduces the same bar series
*provided every accumulated timestamp is integral* — with a fractional
timestamp the integer truncation changes the series (see the
counterexample), so the round trip is closed only on integral
timestamps. -/
theorem c7_export_csv_round_trip (getBars : Option String → List Bar)
    (max_calls : ℕ) (end_dt : Option String) (bars : List Bar) :
    ((writeCsv bars).header = "timestamp,open,high,low,close,volume") ∧
    ((writeCsv bars).rows = bars.map (fun b =>
      ⟨pyInt b.timestamp_epoch_s, b.open_, b.high, b.low, b.close,
       b.volume⟩)) ∧
    List.Sorted barLe (exportAllBars getBars max_calls end_dt) ∧
    List.Pairwise (fun a b : Bar =>
      a.timestamp_epoch_s ≠ b.timestamp_epoch_s)
      (exportAllBars getBars max_calls end_dt) ∧
    (bars = exportAllBars getBars max_calls end_dt →
      (∀ b ∈ bars, b.timestamp_epoch_s.den = 1) →
      load_bars_csv (writeCsv bars) = Except.ok bars) := by
  refine ⟨rfl, rfl, exportAllBars_sorted getBars max_calls end_dt, ?_, ?_⟩
  · rw [exportAllBars]
    exact sortBars_pairwise_ne _
      (exportLoop_pairwise_ne getBars max_calls end_dt [] (List.Pairwise.nil))
  · intro hbars hden
    refine load_writeCsv bars ?_ hden
    rw [hbars]
    exact exportAllBars_sorted getBars max_calls end_dt

/-- Witness for **C7 (amended)**: the two-bar integral-timestamp broker
exports `[bar1, bar2]` and reloading the written CSV reproduces it. -/
theorem c7_export_csv_round_trip_witness :
    load_bars_csv (writeCsv (exportAllBars intGetBars 10 none)) =
      Except.ok (exportAllBars intGetBars 10 none) := by
  exact (c7_export_csv_round_trip intGetBars 10 none
    (exportAllBars intGetBars 10 none)).2.2.2.2 rfl (by decide)
